import Mathlib

/-!
Verification of the `watch` HTML-generation framework
(`src/framework/generator.py`) against its specification.

Strings are embedded as `List Char` (`Str`).  Python string primitives used
by the generator — `str.split`, `str.replace`, `"sep".join`, the substring
test `in`, `str.startswith`-style prefix matching and `str.strip` — are
modelled below with the same semantics (left-to-right, non-overlapping
matches for `split`/`replace`).
-/

namespace Watch

set_option maxRecDepth 8000

abbrev Str := List Char

/-- Boolean prefix test: `begins p s = true` iff `p` is a prefix of `s`;
the character-list analogue of Python's `str.startswith`. -/
def begins : Str → Str → Bool
  | [], _ => true
  | _ :: _, [] => false
  | a :: as, b :: bs => a == b && begins as bs

/-- Number of (possibly overlapping) positions at which `sep` occurs in `s`.
"Contains the marker exactly once / twice / never" is stated with this count. -/
def occCount (sep : Str) : Str → Nat
  | [] => 0
  | c :: cs => (if begins sep (c :: cs) then 1 else 0) + occCount sep cs

/-- Substring test: the character-list analogue of Python's `in` operator. -/
def containsSub (p : Str) : Str → Bool
  | [] => p.isEmpty
  | c :: cs => begins p (c :: cs) || containsSub p cs

/-- Fuelled worker for `pySplit`; when the fuel is at least `s.length` it
computes Python's `s.split(sep)` (split at every non-overlapping occurrence,
scanning left to right). -/
def pySplitF (sep : Str) : Nat → Str → List Str
  | _, [] => [[]]
  | 0, s => [s]
  | fuel + 1, c :: cs =>
    if sep ≠ [] ∧ begins sep (c :: cs) then
      [] :: pySplitF sep fuel (cs.drop (sep.length - 1))
    else
      match pySplitF sep fuel cs with
      | [] => [[c]]
      | h :: t => (c :: h) :: t

/-- Python's `s.split(sep)` for a non-empty separator. -/
def pySplit (sep s : Str) : List Str :=
  pySplitF sep s.length s

/-- Python's `s.replace(old, new)`: replace every non-overlapping occurrence,
left to right. -/
def pyReplace (old new s : Str) : Str :=
  List.intercalate new (pySplit old s)

theorem begins_iff (p s : Str) : begins p s = true ↔ p <+: s := by
  induction p generalizing s with
  | nil => simp [begins]
  | cons a as ih =>
    cases s with
    | nil => simp [begins]
    | cons b bs =>
      simp only [begins, Bool.and_eq_true, beq_iff_eq, ih, List.cons_prefix_cons]

theorem begins_append (p t : Str) : begins p (p ++ t) = true := by
  exact (begins_iff p (p ++ t)).mpr (List.prefix_append p t)

theorem begins_self (p : Str) : begins p p = true := by
  simpa using begins_append p []

theorem containsSub_of_begins {p s : Str} (h : begins p s = true) :
    containsSub p s = true := by
  cases s with
  | nil =>
    cases p with
    | nil => rfl
    | cons a as => simp [begins] at h
  | cons c cs => simp [containsSub, h]

theorem containsSub_append_right (p x t : Str) (h : containsSub p t = true) :
    containsSub p (x ++ t) = true := by
  induction x with
  | nil => simpa using h
  | cons c cs ih => simp [containsSub, ih]

theorem containsSub_append_left (p s t : Str) (h : containsSub p s = true) :
    containsSub p (s ++ t) = true := by
  induction s with
  | nil =>
    cases p with
    | nil => cases t with
      | nil => rfl
      | cons c cs => simp [containsSub, begins]
    | cons a as => simp [containsSub] at h
  | cons c cs ih =>
    simp only [containsSub, Bool.or_eq_true] at h
    rcases h with h | h
    · rcases (begins_iff _ _).mp h with ⟨r, hr⟩
      have hb : begins p ((c :: cs) ++ t) = true := by
        apply (begins_iff _ _).mpr
        exact ⟨r ++ t, by rw [← hr]; simp⟩
      simp only [List.cons_append] at hb
      simp [containsSub, hb]
    · simp [containsSub, ih h]

/-- `p` occurs in `a ++ p ++ b` (used for the "file contains the solution
text" style conclusions). -/
theorem containsSub_sandwich (p a b : Str) :
    containsSub p (a ++ p ++ b) = true := by
  have h1 : containsSub p (p ++ b) = true :=
    containsSub_of_begins (begins_append p b)
  have := containsSub_append_right p a (p ++ b) h1
  simpa [List.append_assoc] using this

/-! ### Occurrence counting -/

theorem occCount_append_le (sep x t : Str) :
    occCount sep t ≤ occCount sep (x ++ t) := by
  induction x with
  | nil => simp
  | cons c cs ih =>
    rw [List.cons_append, occCount]
    exact le_trans ih (Nat.le_add_left _ _)

theorem occCount_self_append (sep t : Str) (hsep : sep ≠ []) :
    1 ≤ occCount sep (sep ++ t) := by
  cases sep with
  | nil => exact absurd rfl hsep
  | cons d ds =>
    have hb : begins (d :: ds) ((d :: ds) ++ t) = true := begins_append _ _
    simp only [List.cons_append] at hb
    simp [occCount, hb]

theorem occCount_zero {sep s : Str} (hsep : sep ≠ []) (h : occCount sep s = 0) :
    ∀ i, begins sep (s.drop i) = false := by
  induction s with
  | nil =>
    intro i
    cases sep with
    | nil => exact absurd rfl hsep
    | cons d ds => simp [begins]
  | cons c cs ih =>
    rw [occCount] at h
    have h0 : (if begins sep (c :: cs) then 1 else 0) = 0 ∧ occCount sep cs = 0 :=
      Nat.add_eq_zero.mp h
    intro i
    cases i with
    | zero =>
      rw [List.drop_zero]
      by_contra hb
      rw [Bool.not_eq_false] at hb
      rw [if_pos hb] at h0
      exact one_ne_zero h0.1
    | succ j =>
      rw [List.drop_succ_cons]
      exact ih h0.2 j

/-- If `a ++ sep ++ t` contains `sep` exactly once, there is no match anywhere
inside the `a`-zone and none inside `t`. -/
theorem occCount_once {sep : Str} (hsep : sep ≠ []) :
    ∀ a t : Str, occCount sep (a ++ (sep ++ t)) = 1 →
      (∀ i < a.length, begins sep ((a ++ (sep ++ t)).drop i) = false) ∧
      occCount sep t = 0 := by
  intro a
  induction a with
  | nil =>
    intro t h
    refine ⟨by intro i hi; simp at hi, ?_⟩
    cases sep with
    | nil => exact absurd rfl hsep
    | cons d ds =>
      have hb : begins (d :: ds) ((d :: ds) ++ t) = true := begins_append _ _
      rw [List.cons_append] at hb
      rw [List.nil_append, List.cons_append, occCount, if_pos hb] at h
      have hle := occCount_append_le (d :: ds) ds t
      omega
  | cons c a' ih =>
    intro t h
    rw [List.cons_append, occCount] at h
    have hge : 1 ≤ occCount sep (a' ++ (sep ++ t)) :=
      le_trans (occCount_self_append sep t hsep) (occCount_append_le sep a' (sep ++ t))
    cases hb0 : begins sep (c :: (a' ++ (sep ++ t))) with
    | true =>
      rw [if_pos hb0] at h
      omega
    | false =>
      rw [if_neg (by simp [hb0])] at h
      have h1 : occCount sep (a' ++ (sep ++ t)) = 1 := by omega
      obtain ⟨hA, hT⟩ := ih t h1
      refine ⟨?_, hT⟩
      intro i hi
      cases i with
      | zero =>
        rw [List.drop_zero, List.cons_append]
        exact hb0
      | succ j =>
        rw [List.cons_append, List.drop_succ_cons]
        exact hA j (by simpa using hi)

/-- If `a ++ sep ++ (b ++ sep ++ c)` contains `sep` exactly twice, there is no
match inside the `a`-zone and the tail `b ++ sep ++ c` contains it exactly
once. -/
theorem occCount_twice {sep : Str} (hsep : sep ≠ []) :
    ∀ a b c : Str, occCount sep (a ++ (sep ++ (b ++ (sep ++ c)))) = 2 →
      (∀ i < a.length, begins sep ((a ++ (sep ++ (b ++ (sep ++ c)))).drop i) = false) ∧
      occCount sep (b ++ (sep ++ c)) = 1 := by
  intro a
  induction a with
  | nil =>
    intro b c h
    refine ⟨by intro i hi; simp at hi, ?_⟩
    cases sep with
    | nil => exact absurd rfl hsep
    | cons d ds =>
      have hb : begins (d :: ds) ((d :: ds) ++ (b ++ ((d :: ds) ++ c))) = true :=
        begins_append _ _
      rw [List.cons_append] at hb
      rw [List.nil_append, List.cons_append, occCount, if_pos hb] at h
      have hle : occCount (d :: ds) (b ++ ((d :: ds) ++ c)) ≤
          occCount (d :: ds) (ds ++ (b ++ ((d :: ds) ++ c))) :=
        occCount_append_le _ ds _
      have hge1 : 1 ≤ occCount (d :: ds) (b ++ ((d :: ds) ++ c)) :=
        le_trans (occCount_self_append _ c hsep) (occCount_append_le _ b _)
      omega
  | cons x a' ih =>
    intro b c h
    rw [List.cons_append, occCount] at h
    have hge : 2 ≤ occCount sep (a' ++ (sep ++ (b ++ (sep ++ c)))) := by
      have hmid : 2 ≤ occCount sep (sep ++ (b ++ (sep ++ c))) := by
        cases sep with
        | nil => exact absurd rfl hsep
        | cons d ds =>
          have step1 : 1 ≤ occCount (d :: ds) ((d :: ds) ++ c) :=
            occCount_self_append _ c hsep
          have step2 : occCount (d :: ds) ((d :: ds) ++ c) ≤
              occCount (d :: ds) (b ++ ((d :: ds) ++ c)) :=
            occCount_append_le _ b _
          have hb : begins (d :: ds) ((d :: ds) ++ (b ++ ((d :: ds) ++ c))) = true :=
            begins_append _ _
          rw [List.cons_append] at hb
          rw [List.cons_append, occCount, if_pos hb]
          have hle : occCount (d :: ds) (b ++ ((d :: ds) ++ c)) ≤
              occCount (d :: ds) (ds ++ (b ++ ((d :: ds) ++ c))) :=
            occCount_append_le _ ds _
          omega
      exact le_trans hmid (occCount_append_le _ a' _)
    cases hb0 : begins sep (x :: (a' ++ (sep ++ (b ++ (sep ++ c))))) with
    | true =>
      rw [if_pos hb0] at h
      omega
    | false =>
      rw [if_neg (by simp [hb0])] at h
      have h2 : occCount sep (a' ++ (sep ++ (b ++ (sep ++ c)))) = 2 := by omega
      obtain ⟨hA, hT⟩ := ih b c h2
      refine ⟨?_, hT⟩
      intro i hi
      cases i with
      | zero =>
        rw [List.drop_zero, List.cons_append]
        exact hb0
      | succ j =>
        rw [List.cons_append, List.drop_succ_cons]
        exact hA j (by simpa using hi)

/-! ### Structure of `pySplit` -/

theorem pySplitF_fuel (sep : Str) :
    ∀ f₁ : Nat, ∀ f₂ : Nat, ∀ s : Str, s.length ≤ f₁ → s.length ≤ f₂ →
      pySplitF sep f₁ s = pySplitF sep f₂ s := by
  intro f₁
  induction f₁ with
  | zero =>
    intro f₂ s h₁ _
    have : s = [] := List.length_eq_zero.mp (Nat.le_zero.mp h₁)
    subst this
    cases f₂ <;> rfl
  | succ f ih =>
    intro f₂ s h₁ h₂
    cases s with
    | nil => cases f₂ <;> rfl
    | cons c cs =>
      cases f₂ with
      | zero => simp at h₂
      | succ g =>
        rw [pySplitF, pySplitF]
        by_cases hcond : sep ≠ [] ∧ begins sep (c :: cs) = true
        · rw [if_pos hcond, if_pos hcond]
          have hlen : (cs.drop (sep.length - 1)).length ≤ f := by
            have := List.length_drop (sep.length - 1) cs
            simp only [List.length_cons] at h₁
            omega
          have hlen2 : (cs.drop (sep.length - 1)).length ≤ g := by
            have := List.length_drop (sep.length - 1) cs
            simp only [List.length_cons] at h₂
            omega
          rw [ih g _ hlen hlen2]
        · rw [if_neg hcond, if_neg hcond]
          have hlen : cs.length ≤ f := by
            simp only [List.length_cons] at h₁; omega
          have hlen2 : cs.length ≤ g := by
            simp only [List.length_cons] at h₂; omega
          rw [ih g cs hlen hlen2]

theorem pySplitF_nomatch {sep : Str} (hsep : sep ≠ []) :
    ∀ fuel : Nat, ∀ s : Str, s.length ≤ fuel →
      (∀ i, begins sep (s.drop i) = false) → pySplitF sep fuel s = [s] := by
  intro fuel
  induction fuel with
  | zero =>
    intro s h₁ _
    have : s = [] := List.length_eq_zero.mp (Nat.le_zero.mp h₁)
    subst this
    rfl
  | succ f ih =>
    intro s h₁ h
    cases s with
    | nil => rfl
    | cons c cs =>
      rw [pySplitF]
      have hb : begins sep (c :: cs) = false := by
        have := h 0
        rwa [List.drop_zero] at this
      rw [if_neg (by simp [hb])]
      have hrec : pySplitF sep f cs = [cs] := by
        apply ih cs (by simp at h₁; omega)
        intro i
        have := h (i + 1)
        rwa [List.drop_succ_cons] at this
      rw [hrec]

theorem pySplitF_boundary {sep : Str} (hsep : sep ≠ []) :
    ∀ a : Str, ∀ fuel : Nat, ∀ rest : Str, (a ++ (sep ++ rest)).length ≤ fuel →
      (∀ i < a.length, begins sep ((a ++ (sep ++ rest)).drop i) = false) →
      pySplitF sep fuel (a ++ (sep ++ rest)) =
        a :: pySplitF sep rest.length rest := by
  intro a
  induction a with
  | nil =>
    intro fuel rest h₁ _
    cases sep with
    | nil => exact absurd rfl hsep
    | cons d ds =>
      rw [List.nil_append, List.cons_append] at h₁ ⊢
      cases fuel with
      | zero => simp at h₁
      | succ f =>
        have hb : begins (d :: ds) ((d :: ds) ++ rest) = true := begins_append _ _
        rw [List.cons_append] at hb
        rw [pySplitF, if_pos ⟨by simp, hb⟩]
        have hdrop : (ds ++ rest).drop ((d :: ds).length - 1) = rest := by
          simp only [List.length_cons, Nat.add_sub_cancel]
          exact List.drop_left ds rest
        rw [hdrop]
        have hlen : rest.length ≤ f := by
          simp only [List.length_cons, List.length_append] at h₁
          omega
        rw [pySplitF_fuel (d :: ds) f rest.length rest hlen (le_refl _)]
  | cons c a' ih =>
    intro fuel rest h₁ h
    rw [List.cons_append] at h₁ ⊢
    cases fuel with
    | zero => simp at h₁
    | succ f =>
      have hb : begins sep (c :: (a' ++ (sep ++ rest))) = false := by
        have := h 0 (by simp)
        rwa [List.drop_zero, List.cons_append] at this
      rw [pySplitF, if_neg (by simp [hb])]
      have hrec : pySplitF sep f (a' ++ (sep ++ rest)) =
          a' :: pySplitF sep rest.length rest := by
        apply ih f rest (by simp at h₁ ⊢; omega)
        intro i hi
        have := h (i + 1) (by simp at hi ⊢; omega)
        rwa [List.cons_append, List.drop_succ_cons] at this
      rw [hrec]

/-- A string with no occurrence of the (non-empty) separator splits into a
single chunk: itself. -/
theorem pySplit_nomatch {sep : Str} (hsep : sep ≠ []) {s : Str}
    (h : occCount sep s = 0) : pySplit sep s = [s] :=
  pySplitF_nomatch hsep s.length s (le_refl _) (occCount_zero hsep h)

/-- A string containing the (non-empty) separator exactly once splits into
the part before it and the part after it. -/
theorem pySplit_once {sep : Str} (hsep : sep ≠ []) {a b : Str}
    (h : occCount sep (a ++ (sep ++ b)) = 1) :
    pySplit sep (a ++ (sep ++ b)) = [a, b] := by
  obtain ⟨hA, hB⟩ := occCount_once hsep a b h
  rw [pySplit, pySplitF_boundary hsep a _ b (le_refl _) hA]
  rw [show pySplitF sep b.length b = pySplit sep b from rfl,
    pySplit_nomatch hsep hB]

/-- A string containing the (non-empty) separator exactly twice splits into
three chunks. -/
theorem pySplit_twice {sep : Str} (hsep : sep ≠ []) {a b c : Str}
    (h : occCount sep (a ++ (sep ++ (b ++ (sep ++ c)))) = 2) :
    pySplit sep (a ++ (sep ++ (b ++ (sep ++ c)))) = [a, b, c] := by
  obtain ⟨hA, hT⟩ := occCount_twice hsep a b c h
  rw [pySplit, pySplitF_boundary hsep a _ _ (le_refl _) hA]
  rw [show pySplitF sep (b ++ (sep ++ c)).length (b ++ (sep ++ c)) =
    pySplit sep (b ++ (sep ++ c)) from rfl]
  rw [pySplit_once hsep hT]

/-! ### Structure of `pyReplace` -/

theorem intercalate_pair (v a b : Str) :
    List.intercalate v [a, b] = a ++ (v ++ b) := by
  simp [List.intercalate, List.intersperse]

theorem pyReplace_nomatch {old : Str} (hsep : old ≠ []) {s : Str}
    (h : occCount old s = 0) (new : Str) : pyReplace old new s = s := by
  rw [pyReplace, pySplit_nomatch hsep h]
  simp [List.intercalate]

theorem pyReplace_once {old : Str} (hsep : old ≠ []) {a b : Str}
    (h : occCount old (a ++ (old ++ b)) = 1) (new : Str) :
    pyReplace old new (a ++ (old ++ b)) = a ++ (new ++ b) := by
  rw [pyReplace, pySplit_once hsep h, intercalate_pair]

/-! ### Data model (`src/framework/generator.py`, lines 13-103)

`TaskCategory`, `Task` and `CompactFramework` are direct embeddings of the
Python classes.  The unused `config` dictionary of `CompactFramework.__init__`
is not needed by any generation path and is omitted. -/

/-- Size categories of tasks (`TaskCategory`, lines 13-17). -/
inductive TaskCategory where
  | short
  | medium
  | long
deriving DecidableEq

/-- The `.value` of a category member: its lower-case token. -/
def TaskCategory.value : TaskCategory → Str
  | .short => ("short").data
  | .medium => ("medium").data
  | .long => ("long").data

/-- One task record (`Task.__init__`, lines 23-43). -/
structure Task where
  number : Nat
  category : TaskCategory
  solution : Str
  visualization_svg : Option Str := none
  custom_class : Str := []
deriving DecidableEq

/-- Decimal rendering of a task number, as Python's string interpolation of a
non-negative `int`. -/
def natStr (n : Nat) : Str := (Nat.repr n).data

/-- Python's `str.strip`: drop leading and trailing whitespace. -/
def pyStrip (s : Str) : Str :=
  ((s.dropWhile Char.isWhitespace).reverse.dropWhile Char.isWhitespace).reverse

/-! Literal fragments of the `Task.to_html` f-strings (lines 45-72), byte
for byte, with `\n` for the newlines of the triple-quoted strings. -/

def vizA : Str := ("\n            <div class=\"task-visualization\">\n                ").data
def vizB : Str := ("\n            </div>\n            ").data
def htmlA : Str := ("\n        <div class=\"").data
def htmlB : Str := ("\">\n            <div class=\"task-header\">\n                <div class=\"task-number\">Задача ").data
def htmlC : Str := ("</div>\n                <div class=\"task-category\">").data
def htmlD : Str := ("</div>\n            </div>\n            <div class=\"task-content\">\n                <div class=\"task-solution\">\n                    ").data
def htmlE : Str := ("\n                </div>\n                ").data
def htmlF : Str := ("\n            </div>\n        </div>\n        ").data

/-- Rendering of one task (`Task.to_html`, lines 45-72).  The `if
self.visualization_svg:` test is Python truthiness: both `None` and the empty
string suppress the illustration block. -/
def Task.to_html (t : Task) : Str :=
  let category_class := ("task-").data ++ t.category.value
  let all_classes :=
    pyStrip (("task ").data ++ category_class ++ (" ").data ++ t.custom_class)
  let visualization_html :=
    match t.visualization_svg with
    | none => []
    | some svg => if svg.isEmpty then [] else vizA ++ svg ++ vizB
  htmlA ++ all_classes ++ htmlB ++ natStr t.number ++ htmlC ++ t.category.value ++
    htmlD ++ t.solution ++ htmlE ++ visualization_html ++ htmlF

/-- The document context (`CompactFramework.__init__`, lines 78-103). -/
structure CompactFramework where
  title : Str
  author : Str
  date : Str
  tasks : List Task
  custom_styles : Str

/-- Compact-layout ordering (`CompactFramework._optimize_layout`, lines
128-147): the three category buckets, each a `filter` of the input (hence
keeping the original relative order), concatenated short, medium, long. -/
def optimize_layout (tasks : List Task) : List Task :=
  let short_tasks := tasks.filter fun t => t.category = TaskCategory.short
  let medium_tasks := tasks.filter fun t => t.category = TaskCategory.medium
  let long_tasks := tasks.filter fun t => t.category = TaskCategory.long
  short_tasks ++ medium_tasks ++ long_tasks

/-! Placeholder tokens (template interface, spec section 6); braces written
with hex escapes. -/

def customStylesTok : Str := ("\x7b\x7bCUSTOM_STYLES\x7d\x7d").data
def titleTok : Str := ("\x7b\x7bTITLE\x7d\x7d").data
def authorTok : Str := ("\x7b\x7bAUTHOR\x7d\x7d").data
def dateTok : Str := ("\x7b\x7bDATE\x7d\x7d").data
def tasksTok : Str := ("\x7b\x7bTASKS\x7d\x7d").data
def contentTok : Str := ("\x7b\x7bCONTENT\x7d\x7d").data

/-- Single-page assembly (`CompactFramework.generate`, lines 149-187),
as the pure function from the template text read from disk to the HTML text
written to the output file.  The replacement chain and its order are those of
lines 175-183; `if self.custom_styles:` is Python truthiness (non-empty). -/
def CompactFramework.generateHtml (fw : CompactFramework) (template : Str) : Str :=
  let tasks_html :=
    List.intercalate (("\n").data) ((optimize_layout fw.tasks).map Task.to_html)
  let html :=
    if fw.custom_styles = [] then pyReplace customStylesTok [] template
    else pyReplace customStylesTok fw.custom_styles template
  let html := pyReplace titleTok fw.title html
  let html := pyReplace authorTok fw.author html
  let html := pyReplace dateTok fw.date html
  pyReplace tasksTok tasks_html html

/-- Failure of reading a template or style-sheet file (Python `OSError` and
subclasses raised by `open`). -/
structure OSError where
  msg : Str
deriving DecidableEq

/-- Effectful shell of `CompactFramework.generate` (lines 149-187): the
template is read first (line 165); if that read raises, the error propagates
and no output file is written, otherwise exactly one file is written. -/
def CompactFramework.generate (fw : CompactFramework) (output_path : Str)
    (templateRead : Except OSError Str) : Except OSError (List (Str × Str)) :=
  match templateRead with
  | .error e => .error e
  | .ok template => .ok [(output_path, fw.generateHtml template)]

/-- List of files an effectful call wrote: none on failure. -/
def writtenFiles (r : Except OSError (List (Str × Str))) : List (Str × Str) :=
  match r with
  | .error _ => []
  | .ok l => l

/-! ### Density-variant generation (`generate_density_variants`, lines 195-346)

The self-contained base template (lines 210-258) is an f-string around the
`watch_styles.css` content and the variant class; after f-string processing
its doubled braces are single literal braces and `\x7b\x7bCONTENT\x7d\x7d`
is the literal placeholder token.  It is transcribed below byte for byte
(braces and apostrophes as hex escapes), split at its two interpolation
points and at the placeholder. -/

def btA : Str := ("<!DOCTYPE html>\n<html>\n<head>\n    <meta charset=\"UTF-8\">\n    <title>Watch Task</title>\n    <script src=\"https://polyfill.io/v3/polyfill.min.js?features=es6\"></script>\n    <script id=\"MathJax-script\" async src=\"https://cdn.jsdelivr.net/npm/mathjax@3/es5/tex-mml-chtml.js\"></script>\n    <script>\n        // AUTO-FIT LOGIC\n        window.addEventListener(\x27load\x27, function() \x7b\n            const container = document.querySelector(\x27.watch-container\x27);\n            if (!container) return;\n\n            // 1. Adjust Font Size to Fill\n            // Only for adaptive layout or generally to prevent overflow\n            function autoFit() \x7b\n                let fontSize = 100; // Start percentage\n                const minSize = 40;\n                \n                // Check for overflow\n                while (container.scrollHeight > container.clientHeight && fontSize > minSize) \x7b\n                    fontSize -= 2;\n                    document.body.style.fontSize = fontSize + \x27%\x27;\n                \x7d\n                \n                // If too much space (only for adaptive), grow? \n                // For now, just ensure it fits.\n            \x7d\n            \n            // Run after MathJax\n            if (window.MathJax) \x7b\n                MathJax.startup.promise.then(() => \x7b\n                    setTimeout(autoFit, 500); // Delay for rendering\n                \x7d);\n            \x7d else \x7b\n                autoFit();\n            \x7d\n        \x7d);\n    </script>\n    <style>\n        ").data

def btB : Str := ("\n    </style>\n</head>\n<body class=\"").data

def btC : Str := ("\">\n    <div class=\"watch-container\">\n        ").data

def btD : Str := ("\n    </div>\n</body>\n</html>").data

/-- The assembled base template of lines 210-258. -/
def baseTemplate (variant_class css_content : Str) : Str :=
  btA ++ css_content ++ btB ++ variant_class ++ btC ++ contentTok ++ btD

/-- Fixed prefix of the base template up to the placeholder token. -/
def btPre (variant_class css_content : Str) : Str :=
  btA ++ css_content ++ btB ++ variant_class ++ btC

theorem baseTemplate_decomp (v css : Str) :
    baseTemplate v css = btPre v css ++ (contentTok ++ btD) := by
  simp [baseTemplate, btPre, List.append_assoc]

/-! Literal fragments of the layout f-strings (lines 267-296 and 305-344). -/

def zzA : Str := ("\n                <div class=\"layout-zigzag\">\n                    <div class=\"zigzag-separator\">\n                         <svg width=\"100%\" height=\"100%\" viewBox=\"0 0 100 100\" preserveAspectRatio=\"none\">\n                             <polyline points=\"0,0 100,0 100,40 0,100\" class=\"zigzag-line\" />\n                         </svg>\n                    </div>\n                    <div class=\"task-top\">\n                        <div class=\"task-id\">").data
def zzB : Str := ("</div>\n                        <div class=\"math-content\">").data
def zzC : Str := ("</div>\n                    </div>\n                    <div class=\"task-bottom\">\n                        <div class=\"task-id\">").data
def zzD : Str := ("</div>\n                    </div>\n                </div>\n                ").data

def vsA : Str := ("\n                <div class=\"layout-vertical-split\">\n                    <div class=\"task-left\">\n                        <div class=\"task-id\">#").data
def vsB : Str := ("</div>\n                        <div class=\"math-content\">").data
def vsC : Str := ("</div>\n                    </div>\n                    <div class=\"task-right\">\n                        <div class=\"task-id\">#").data
def vsD : Str := ("</div>\n                    </div>\n                </div>\n                ").data

def adA : Str := ("\n            <div class=\"layout-adaptive\">\n                <div class=\"adaptive-content\">\n                    <div class=\"task-id\">Task ").data
def adB : Str := ("</div>\n                    <div class=\"math-content\">").data
def adC : Str := ("</div>\n                </div>\n            </div>\n            ").data

/-- Top/bottom paired layout with the diagonal separator (lines 267-283). -/
def zigzagContent (t1 t2 : Task) : Str :=
  zzA ++ natStr t1.number ++ zzB ++ t1.solution ++ zzC ++ natStr t2.number ++
    zzB ++ t2.solution ++ zzD

/-- Left/right paired layout (lines 285-296). -/
def verticalContent (t1 t2 : Task) : Str :=
  vsA ++ natStr t1.number ++ vsB ++ t1.solution ++ vsC ++ natStr t2.number ++
    vsB ++ t2.solution ++ vsD

/-- Adaptive single-pane layout for the medium task (lines 305-312). -/
def adaptiveContent (t : Task) : Str :=
  adA ++ natStr t.number ++ adB ++ t.solution ++ adC

/-- Adaptive layout for a long-task part, labelled `(1/2)` or `(2/2)`
(lines 325-332 and 337-344). -/
def adaptivePart (label : Str) (n : Nat) (body : Str) : Str :=
  adA ++ natStr n ++ label ++ adB ++ body ++ adC

def splitMarker : Str := ("<hr class=\"split-point\">").data
def continuedLit : Str := ("Continued...").data
def zigzagLit : Str := ("zigzag").data
def part1Label : Str := (" (1/2)").data
def part2Label : Str := (" (2/2)").data

def combinedShortName : Str := ("combined_short.html").data
def mediumSingleName : Str := ("medium_single.html").data
def longPart1Name : Str := ("long_split_part1.html").data
def longPart2Name : Str := ("long_split_part2.html").data

/-- Short-bucket block (lines 260-299): if at least two short tasks exist,
the first two are paired; the layout branches on whether the variant token
contains the substring `zigzag` (Python's `in`). -/
def shortFilesOf (tasks : List Task) (variant_class css_content : Str) :
    List (Str × Str) :=
  match tasks.filter fun t => t.category = TaskCategory.short with
  | t1 :: t2 :: _ =>
    let content :=
      if containsSub zigzagLit variant_class then zigzagContent t1 t2
      else verticalContent t1 t2
    [(combinedShortName,
      pyReplace contentTok content (baseTemplate variant_class css_content))]
  | _ => []

/-- Medium-bucket block (lines 301-314): the first medium task, alone. -/
def mediumFilesOf (tasks : List Task) (variant_class css_content : Str) :
    List (Str × Str) :=
  match tasks.filter fun t => t.category = TaskCategory.medium with
  | t :: _ =>
    [(mediumSingleName,
      pyReplace contentTok (adaptiveContent t) (baseTemplate variant_class css_content))]
  | [] => []

/-- Long-bucket block (lines 316-346): the first long task's solution is
split at the literal marker; fewer than two parts are padded with the
`Continued...` fallback; parts beyond the second are dropped by the
element selections `parts[0]` and `parts[1]`. -/
def longFilesOf (tasks : List Task) (variant_class css_content : Str) :
    List (Str × Str) :=
  match tasks.filter fun t => t.category = TaskCategory.long with
  | t :: _ =>
    let parts0 := pySplit splitMarker t.solution
    let parts := if parts0.length < 2 then [t.solution, continuedLit] else parts0
    let content1 := adaptivePart part1Label t.number (parts.getD 0 [])
    let content2 :=
      adaptivePart part2Label t.number (if 1 < parts.length then parts.getD 1 [] else [])
    [(longPart1Name,
      pyReplace contentTok content1 (baseTemplate variant_class css_content)),
     (longPart2Name,
      pyReplace contentTok content2 (baseTemplate variant_class css_content))]
  | [] => []

/-- The files written by one `generate_density_variants` call, in write
order: short pair, medium single, long split. -/
def densityFiles (tasks : List Task) (variant_class css_content : Str) :
    List (Str × Str) :=
  shortFilesOf tasks variant_class css_content ++
    mediumFilesOf tasks variant_class css_content ++
    longFilesOf tasks variant_class css_content

/-- Effectful shell of `generate_density_variants` (lines 195-346): the
output directory is created when absent (lines 202-203, before any read or
write); the style sheet is read next (lines 206-208) and a failure there
propagates with no file written.  The first component records whether the
directory was created. -/
def generate_density_variants (tasks : List Task) (variant_class : Str)
    (dirExists : Bool) (cssRead : Except OSError Str) :
    Bool × Except OSError (List (Str × Str)) :=
  (!dirExists,
    match cssRead with
    | .error e => .error e
    | .ok css_content => .ok (densityFiles tasks variant_class css_content))

/-! ### Standalone packaging (`generate_standalone`, lines 348-418)

Note on the source: lines 362-363 and 404-406 are mis-indented (an `else:`
followed by a non-indented block), which is an `IndentationError` in Python;
the embedding below follows the evident intended indentation. -/

def cssLinkTag : Str := ("<link rel=\"stylesheet\" href=\"framework/styles.css\">").data
def bodyOpenTag : Str := ("<body>").data
def headCloseTag : Str := ("</head>").data

/-- Pure content transformation of `generate_standalone` (lines 348-418):
regenerate the single-page document, then inline the style sheet (and in
watch mode attach the theme class to `body` and inline before `</head>`),
and finally strip any remaining `CUSTOM_STYLES` placeholder token. -/
def generate_standalone (fw : CompactFramework) (template css_content : Str)
    (watch_mode : Bool) (theme : Str) : Str :=
  let html_content := fw.generateHtml template
  let html_content :=
    if watch_mode then
      let h := pyReplace bodyOpenTag
        (("<body class=\"theme-").data ++ theme ++ ("\">").data) html_content
      let h := pyReplace cssLinkTag [] h
      pyReplace headCloseTag
        (("<style>\n").data ++ css_content ++ ("\n</style>\n</head>").data) h
    else
      pyReplace cssLinkTag
        (("<style>\n").data ++ css_content ++ ("\n</style>").data) html_content
  pyReplace customStylesTok [] html_content

/-! ### Task construction helper (`create_task`, lines 421-444) -/

/-- Raw category token to category: the `category_map.get(category,
TaskCategory.MEDIUM)` lookup of lines 437-443. -/
def parseCategory (category : Str) : TaskCategory :=
  if category = ("short").data then TaskCategory.short
  else if category = ("medium").data then TaskCategory.medium
  else if category = ("long").data then TaskCategory.long
  else TaskCategory.medium

/-- Total task constructor (`create_task`, lines 421-444); it never fails,
and an unrecognized token defaults to the medium category. -/
def create_task (number : Nat) (category : Str) (solution : Str)
    (visualization_svg : Option Str := none) : Task :=
  { number := number
    category := parseCategory category
    solution := solution
    visualization_svg := visualization_svg
    custom_class := [] }

/-! ### Bucket-block structure lemmas -/

theorem shortFilesOf_name (ts : List Task) (v css : Str) :
    ∀ f ∈ shortFilesOf ts v css, f.1 = combinedShortName := by
  intro f hf
  unfold shortFilesOf at hf
  split at hf
  · simp only [List.mem_singleton] at hf
    rw [hf]
  · simp at hf

theorem mediumFilesOf_name (ts : List Task) (v css : Str) :
    ∀ f ∈ mediumFilesOf ts v css, f.1 = mediumSingleName := by
  intro f hf
  unfold mediumFilesOf at hf
  split at hf
  · simp only [List.mem_singleton] at hf
    rw [hf]
  · simp at hf

theorem longFilesOf_name (ts : List Task) (v css : Str) :
    ∀ f ∈ longFilesOf ts v css, f.1 = longPart1Name ∨ f.1 = longPart2Name := by
  intro f hf
  unfold longFilesOf at hf
  split at hf
  · simp only [List.mem_cons, List.not_mem_nil, or_false] at hf
    rcases hf with hf | hf
    · exact Or.inl (by rw [hf])
    · exact Or.inr (by rw [hf])
  · simp at hf

theorem shortFilesOf_length (ts : List Task) (v css : Str) :
    (shortFilesOf ts v css).length ≤ 1 := by
  unfold shortFilesOf
  split <;> simp

theorem mediumFilesOf_length (ts : List Task) (v css : Str) :
    (mediumFilesOf ts v css).length ≤ 1 := by
  unfold mediumFilesOf
  split <;> simp

theorem longFilesOf_length (ts : List Task) (v css : Str) :
    (longFilesOf ts v css).length ≤ 2 := by
  unfold longFilesOf
  split <;> simp

theorem shortFilesOf_congr {ts ts₂ : List Task} (v css : Str)
    (h : ts.filter (fun t => t.category = TaskCategory.short) =
      ts₂.filter (fun t => t.category = TaskCategory.short)) :
    shortFilesOf ts v css = shortFilesOf ts₂ v css := by
  unfold shortFilesOf
  rw [h]

theorem mediumFilesOf_congr {ts ts₂ : List Task} (v css : Str)
    (h : ts.filter (fun t => t.category = TaskCategory.medium) =
      ts₂.filter (fun t => t.category = TaskCategory.medium)) :
    mediumFilesOf ts v css = mediumFilesOf ts₂ v css := by
  unfold mediumFilesOf
  rw [h]

theorem longFilesOf_congr {ts ts₂ : List Task} (v css : Str)
    (h : ts.filter (fun t => t.category = TaskCategory.long) =
      ts₂.filter (fun t => t.category = TaskCategory.long)) :
    longFilesOf ts v css = longFilesOf ts₂ v css := by
  unfold longFilesOf
  rw [h]

theorem densityFiles_filter_combined (ts : List Task) (v css : Str) :
    (densityFiles ts v css).filter (fun f => f.1 = combinedShortName) =
      shortFilesOf ts v css := by
  unfold densityFiles
  rw [List.filter_append, List.filter_append]
  have h1 : (shortFilesOf ts v css).filter (fun f => f.1 = combinedShortName) =
      shortFilesOf ts v css := by
    apply List.filter_eq_self.mpr
    intro f hf
    simp [shortFilesOf_name ts v css f hf]
  have h2 : (mediumFilesOf ts v css).filter (fun f => f.1 = combinedShortName) = [] := by
    apply List.filter_eq_nil.mpr
    intro f hf
    rw [mediumFilesOf_name ts v css f hf]
    decide
  have h3 : (longFilesOf ts v css).filter (fun f => f.1 = combinedShortName) = [] := by
    apply List.filter_eq_nil.mpr
    intro f hf
    rcases longFilesOf_name ts v css f hf with h | h <;> rw [h] <;> decide
  rw [h1, h2, h3, List.append_nil, List.append_nil]

theorem densityFiles_filter_medium (ts : List Task) (v css : Str) :
    (densityFiles ts v css).filter (fun f => f.1 = mediumSingleName) =
      mediumFilesOf ts v css := by
  unfold densityFiles
  rw [List.filter_append, List.filter_append]
  have h1 : (shortFilesOf ts v css).filter (fun f => f.1 = mediumSingleName) = [] := by
    apply List.filter_eq_nil.mpr
    intro f hf
    rw [shortFilesOf_name ts v css f hf]
    decide
  have h2 : (mediumFilesOf ts v css).filter (fun f => f.1 = mediumSingleName) =
      mediumFilesOf ts v css := by
    apply List.filter_eq_self.mpr
    intro f hf
    simp [mediumFilesOf_name ts v css f hf]
  have h3 : (longFilesOf ts v css).filter (fun f => f.1 = mediumSingleName) = [] := by
    apply List.filter_eq_nil.mpr
    intro f hf
    rcases longFilesOf_name ts v css f hf with h | h <;> rw [h] <;> decide
  rw [h1, h2, h3, List.nil_append, List.append_nil]

theorem densityFiles_filter_long (ts : List Task) (v css : Str) :
    (densityFiles ts v css).filter
        (fun f => f.1 = longPart1Name ∨ f.1 = longPart2Name) =
      longFilesOf ts v css := by
  unfold densityFiles
  rw [List.filter_append, List.filter_append]
  have h1 : (shortFilesOf ts v css).filter
      (fun f => f.1 = longPart1Name ∨ f.1 = longPart2Name) = [] := by
    apply List.filter_eq_nil.mpr
    intro f hf
    rw [shortFilesOf_name ts v css f hf]
    decide
  have h2 : (mediumFilesOf ts v css).filter
      (fun f => f.1 = longPart1Name ∨ f.1 = longPart2Name) = [] := by
    apply List.filter_eq_nil.mpr
    intro f hf
    rw [mediumFilesOf_name ts v css f hf]
    decide
  have h3 : (longFilesOf ts v css).filter
      (fun f => f.1 = longPart1Name ∨ f.1 = longPart2Name) = longFilesOf ts v css := by
    apply List.filter_eq_self.mpr
    intro f hf
    rcases longFilesOf_name ts v css f hf with h | h <;> simp [h]
  rw [h1, h2, h3, List.nil_append, List.nil_append]

/-! ### Claim C8 -/

/-- C8: for every category token outside `short`, `medium`, `long`, task
construction succeeds (`create_task` is a total function) and the resulting
task has the medium category. -/
theorem create_task_unknown_token_defaults_medium
    (n : Nat) (category sol : Str) (viz : Option Str)
    (h1 : category ≠ ("short").data) (h2 : category ≠ ("medium").data)
    (h3 : category ≠ ("long").data) :
    (create_task n category sol viz).category = TaskCategory.medium := by
  simp [create_task, parseCategory, h1, h2, h3]

/-- Witness for C8 at the concrete unrecognized token `huge`. -/
theorem create_task_unknown_token_defaults_medium_witness :
    (create_task 7 (("huge").data) (("x").data) none).category = TaskCategory.medium :=
  create_task_unknown_token_defaults_medium 7 _ _ none
    (by decide) (by decide) (by decide)

/-! ### Claim C9 -/

/-- C9: if the template read of `generate` (line 165) or the style-sheet
read of `generate_density_variants` (lines 206-208) raises, the error
propagates to the caller unchanged and no output file is written. -/
theorem resource_read_failure_propagates_without_writes :
    ∀ (fw : CompactFramework) (p : Str) (e : OSError)
      (ts : List Task) (v : Str) (d : Bool),
      fw.generate p (Except.error e) = Except.error e ∧
      writtenFiles (fw.generate p (Except.error e)) = [] ∧
      (generate_density_variants ts v d (Except.error e)).2 = Except.error e ∧
      writtenFiles (generate_density_variants ts v d (Except.error e)).2 = [] := by
  intro fw p e ts v d
  exact ⟨rfl, rfl, rfl, rfl⟩

/-! ### Claim C10 -/

/-- C10: with fewer than two short tasks, no medium task and no long task,
`generate_density_variants` still creates the output directory when it is
absent, completes without error, and writes zero files. -/
theorem empty_buckets_create_dir_and_write_nothing :
    ∀ (ts : List Task) (v css : Str),
      (ts.filter fun t => t.category = TaskCategory.short).length < 2 →
      ts.filter (fun t => t.category = TaskCategory.medium) = [] →
      ts.filter (fun t => t.category = TaskCategory.long) = [] →
      generate_density_variants ts v false (Except.ok css) = (true, Except.ok []) ∧
      (∀ d : Bool, (generate_density_variants ts v d (Except.ok css)).1 = !d) := by
  intro ts v css hS hM hL
  have hshort : shortFilesOf ts v css = [] := by
    unfold shortFilesOf
    cases hfs : ts.filter (fun t => t.category = TaskCategory.short) with
    | nil => rfl
    | cons t1 rest =>
      cases rest with
      | nil => rfl
      | cons t2 r2 =>
        rw [hfs] at hS
        simp only [List.length_cons] at hS
        omega
  have hmed : mediumFilesOf ts v css = [] := by
    unfold mediumFilesOf
    rw [hM]
  have hlong : longFilesOf ts v css = [] := by
    unfold longFilesOf
    rw [hL]
  have hdf : densityFiles ts v css = [] := by
    unfold densityFiles
    rw [hshort, hmed, hlong]
    rfl
  refine ⟨?_, fun d => rfl⟩
  have hred : generate_density_variants ts v false (Except.ok css) =
      (true, Except.ok (densityFiles ts v css)) := rfl
  rw [hred, hdf]

/-- Witness for C10: one lone short task, absent directory. -/
theorem empty_buckets_create_dir_and_write_nothing_witness :
    generate_density_variants
        [{ number := 1, category := TaskCategory.short, solution := ("a").data }]
        (("v").data) false (Except.ok []) = (true, Except.ok []) :=
  (empty_buckets_create_dir_and_write_nothing
    [{ number := 1, category := TaskCategory.short, solution := ("a").data }]
    (("v").data) [] (by decide) (by decide) (by decide)).1

/-! ### Claim C3 -/

/-- C3 as stated is wrong about the maximum file count: with all three
buckets populated a single call writes four files (`combined_short`,
`medium_single`, `long_split_part1`, `long_split_part2`), not at most
three. -/
theorem density_variants_four_files_counterexample :
    ¬ ((densityFiles
        [{ number := 1, category := TaskCategory.short, solution := ("a").data },
         { number := 2, category := TaskCategory.short, solution := ("b").data },
         { number := 3, category := TaskCategory.medium, solution := ("c").data },
         { number := 4, category := TaskCategory.long, solution := ("d").data }]
        (("v").data) []).length ≤ 3) := by
  decide

/-- C3 (amended): one call writes at most four files, never fails once the
style sheet is read, and each bucket's output files depend only on that
bucket's tasks. -/
theorem density_variants_count_and_bucket_independence :
    ∀ (ts : List Task) (v css : Str),
      (densityFiles ts v css).length ≤ 4 ∧
      (∀ d : Bool, (generate_density_variants ts v d (Except.ok css)).2 =
        Except.ok (densityFiles ts v css)) ∧
      (∀ ts₂ : List Task,
        ts.filter (fun t => t.category = TaskCategory.short) =
          ts₂.filter (fun t => t.category = TaskCategory.short) →
        (densityFiles ts v css).filter (fun f => f.1 = combinedShortName) =
          (densityFiles ts₂ v css).filter (fun f => f.1 = combinedShortName)) ∧
      (∀ ts₂ : List Task,
        ts.filter (fun t => t.category = TaskCategory.medium) =
          ts₂.filter (fun t => t.category = TaskCategory.medium) →
        (densityFiles ts v css).filter (fun f => f.1 = mediumSingleName) =
          (densityFiles ts₂ v css).filter (fun f => f.1 = mediumSingleName)) ∧
      (∀ ts₂ : List Task,
        ts.filter (fun t => t.category = TaskCategory.long) =
          ts₂.filter (fun t => t.category = TaskCategory.long) →
        (densityFiles ts v css).filter
            (fun f => f.1 = longPart1Name ∨ f.1 = longPart2Name) =
          (densityFiles ts₂ v css).filter
            (fun f => f.1 = longPart1Name ∨ f.1 = longPart2Name)) := by
  intro ts v css
  refine ⟨?_, fun d => rfl, ?_, ?_, ?_⟩
  · unfold densityFiles
    rw [List.length_append, List.length_append]
    have := shortFilesOf_length ts v css
    have := mediumFilesOf_length ts v css
    have := longFilesOf_length ts v css
    omega
  · intro ts₂ h
    rw [densityFiles_filter_combined, densityFiles_filter_combined]
    exact shortFilesOf_congr v css h
  · intro ts₂ h
    rw [densityFiles_filter_medium, densityFiles_filter_medium]
    exact mediumFilesOf_congr v css h
  · intro ts₂ h
    rw [densityFiles_filter_long, densityFiles_filter_long]
    exact longFilesOf_congr v css h

/-- Witness for C3 (amended), instantiating the bucket-independence parts
at concrete task lists that share their buckets. -/
theorem density_variants_count_and_bucket_independence_witness :
    (densityFiles
        [{ number := 1, category := TaskCategory.short, solution := ("a").data }]
        (("v").data) []).length ≤ 4 ∧
      (densityFiles
          [{ number := 1, category := TaskCategory.short, solution := ("a").data }]
          (("v").data) []).filter (fun f => f.1 = mediumSingleName) =
        (densityFiles [] (("v").data) []).filter (fun f => f.1 = mediumSingleName) := by
  have h := density_variants_count_and_bucket_independence
    [{ number := 1, category := TaskCategory.short, solution := ("a").data }]
    (("v").data) []
  exact ⟨h.1, h.2.2.2.1 [] (by decide)⟩

/-! ### Claim C4 -/

/-- C4 as stated is wrong: generation (including standalone packaging) only
ever substitutes the recognized tokens, so an unrecognized placeholder such
as the literal token spelled left-brace, left-brace, F, O, O, right-brace,
right-brace survives verbatim in the output file instead of being stripped
to the empty string. -/
theorem unfilled_placeholder_survives_counterexample :
    generate_standalone
        { title := [], author := [], date := [], tasks := [], custom_styles := [] }
        (("\x7b\x7bFOO\x7d\x7d").data) [] false (("dark").data) =
      ("\x7b\x7bFOO\x7d\x7d").data ∧
    containsSub (("\x7b\x7bFOO\x7d\x7d").data)
      (generate_standalone
        { title := [], author := [], date := [], tasks := [], custom_styles := [] }
        (("\x7b\x7bFOO\x7d\x7d").data) [] false (("dark").data)) = true := by
  exact ⟨by decide, by decide⟩

/-- C4 (amended): only the recognized placeholder tokens (`CUSTOM_STYLES`,
`TITLE`, `AUTHOR`, `DATE`, `TASKS`, and the style-sheet link during
standalone packaging) are substituted; any other text — in particular any
unrecognized placeholder token — passes through `generate` and non-watch
standalone packaging unchanged, visible in the output. -/
theorem generate_replaces_only_recognized_tokens
    (fw : CompactFramework) (template css theme : Str)
    (h1 : occCount customStylesTok template = 0)
    (h2 : occCount titleTok template = 0)
    (h3 : occCount authorTok template = 0)
    (h4 : occCount dateTok template = 0)
    (h5 : occCount tasksTok template = 0) :
    fw.generateHtml template = template ∧
    (occCount cssLinkTag template = 0 →
      generate_standalone fw template css false theme = template) := by
  have e1 : (if fw.custom_styles = [] then pyReplace customStylesTok [] template
      else pyReplace customStylesTok fw.custom_styles template) = template := by
    split
    · exact pyReplace_nomatch (by decide) h1 []
    · exact pyReplace_nomatch (by decide) h1 fw.custom_styles
  have hg : fw.generateHtml template = template := by
    simp only [CompactFramework.generateHtml]
    rw [e1, pyReplace_nomatch (by decide) h2 fw.title,
      pyReplace_nomatch (by decide) h3 fw.author,
      pyReplace_nomatch (by decide) h4 fw.date,
      pyReplace_nomatch (by decide) h5 _]
  refine ⟨hg, ?_⟩
  intro h6
  simp only [generate_standalone, Bool.false_eq_true, if_false, hg]
  rw [pyReplace_nomatch (by decide) h6 _, pyReplace_nomatch (by decide) h1 []]

/-- Witness for C4 (amended) at a template with an unrecognized placeholder
token. -/
theorem generate_replaces_only_recognized_tokens_witness :
    CompactFramework.generateHtml
        { title := ("t").data, author := ("a").data, date := [], tasks := [],
          custom_styles := [] }
        (("\x7b\x7bFOO\x7d\x7d").data) = ("\x7b\x7bFOO\x7d\x7d").data ∧
    generate_standalone
        { title := ("t").data, author := ("a").data, date := [], tasks := [],
          custom_styles := [] }
        (("\x7b\x7bFOO\x7d\x7d").data) (("body").data) false (("dark").data) =
      ("\x7b\x7bFOO\x7d\x7d").data := by
  have h := generate_replaces_only_recognized_tokens
    { title := ("t").data, author := ("a").data, date := [], tasks := [],
      custom_styles := [] }
    (("\x7b\x7bFOO\x7d\x7d").data) (("body").data) (("dark").data)
    (by decide) (by decide) (by decide) (by decide) (by decide)
  exact ⟨h.1, h.2 (by decide)⟩

/-! ### Claim C1 -/

/-- Rank of a category in the fixed concatenation order short, medium,
long. -/
def catRank : TaskCategory → Nat
  | .short => 0
  | .medium => 1
  | .long => 2

theorem pairwise_of_all {α : Type} {R : α → α → Prop} :
    ∀ l : List α, (∀ a ∈ l, ∀ b ∈ l, R a b) → l.Pairwise R := by
  intro l
  induction l with
  | nil => intro _; exact List.Pairwise.nil
  | cons a t ih =>
    intro h
    refine List.Pairwise.cons ?_ (ih ?_)
    · intro b hb
      exact h a (by simp) b (by simp [hb])
    · intro x hx y hy
      exact h x (by simp [hx]) y (by simp [hy])

theorem mem_filter_cat {c : TaskCategory} {l : List Task} {a : Task}
    (ha : a ∈ l.filter fun t => t.category = c) : a.category = c := by
  have := (List.mem_filter.mp ha).2
  simpa using this

theorem filter_cat_same (c : TaskCategory) (l : List Task) :
    (l.filter fun t => t.category = c).filter (fun t => t.category = c) =
      l.filter fun t => t.category = c :=
  List.filter_eq_self.mpr fun a ha => by simp [mem_filter_cat ha]

theorem filter_cat_diff {c d : TaskCategory} (h : c ≠ d) (l : List Task) :
    (l.filter fun t => t.category = d).filter (fun t => t.category = c) = [] := by
  apply List.filter_eq_nil_iff.mpr
  intro a ha
  have hd := mem_filter_cat ha
  simp only [decide_eq_true_eq]
  rw [hd]
  exact fun hc => h hc.symm

theorem optimize_layout_perm : ∀ ts : List Task, (optimize_layout ts).Perm ts := by
  intro ts
  induction ts with
  | nil => simp [optimize_layout]
  | cons t ts ih =>
    simp only [optimize_layout] at ih ⊢
    cases hc : t.category with
    | short =>
      simp only [List.filter_cons, hc]
      simp only [decide_eq_true_eq, reduceCtorEq, if_false, if_true, decide_True]
      simp only [List.cons_append]
      exact ih.cons t
    | medium =>
      simp only [List.filter_cons, hc]
      simp only [decide_eq_true_eq, reduceCtorEq, if_false, if_true, decide_True]
      have hshape :
          (ts.filter fun x => x.category = TaskCategory.short) ++
            (t :: (ts.filter fun x => x.category = TaskCategory.medium)) ++
            (ts.filter fun x => x.category = TaskCategory.long) =
          (ts.filter fun x => x.category = TaskCategory.short) ++
            t :: ((ts.filter fun x => x.category = TaskCategory.medium) ++
              (ts.filter fun x => x.category = TaskCategory.long)) := by
        simp [List.append_assoc]
      rw [hshape]
      refine List.perm_middle.trans ?_
      refine List.Perm.cons t ?_
      rw [← List.append_assoc]
      exact ih
    | long =>
      simp only [List.filter_cons, hc]
      simp only [decide_eq_true_eq, reduceCtorEq, if_false, if_true, decide_True]
      have hshape :
          (ts.filter fun x => x.category = TaskCategory.short) ++
            (ts.filter fun x => x.category = TaskCategory.medium) ++
            (t :: (ts.filter fun x => x.category = TaskCategory.long)) =
          ((ts.filter fun x => x.category = TaskCategory.short) ++
            (ts.filter fun x => x.category = TaskCategory.medium)) ++
            t :: (ts.filter fun x => x.category = TaskCategory.long) := by
        simp [List.append_assoc]
      rw [hshape]
      refine List.perm_middle.trans ?_
      refine List.Perm.cons t ?_
      exact ih

/-- C1: single-page assembly renders exactly one block per input task (the
rendered blocks are a permutation of the per-task renders), each category's
subsequence keeps the original relative order (the filters agree), the block
sequence is sorted by the bucket order short, medium, long, and `generate`
run on the template consisting of the `TASKS` placeholder alone emits
precisely the newline-joined rendered blocks of the reordered list. -/
theorem single_page_blocks_stable_partition :
    ∀ ts : List Task,
      ((optimize_layout ts).map Task.to_html).Perm (ts.map Task.to_html) ∧
      (∀ c : TaskCategory,
        (optimize_layout ts).filter (fun t => t.category = c) =
          ts.filter (fun t => t.category = c)) ∧
      (optimize_layout ts).Pairwise
        (fun a b => catRank a.category ≤ catRank b.category) ∧
      (∀ fw : CompactFramework, fw.generateHtml tasksTok =
        List.intercalate (("\n").data)
          ((optimize_layout fw.tasks).map Task.to_html)) := by
  intro ts
  refine ⟨(optimize_layout_perm ts).map Task.to_html, ?_, ?_, ?_⟩
  · intro c
    simp only [optimize_layout]
    rw [List.filter_append, List.filter_append]
    cases c with
    | short =>
      rw [filter_cat_same, filter_cat_diff (by decide), filter_cat_diff (by decide)]
      simp
    | medium =>
      rw [filter_cat_same, filter_cat_diff (by decide), filter_cat_diff (by decide)]
      simp
    | long =>
      rw [filter_cat_same, filter_cat_diff (by decide), filter_cat_diff (by decide)]
      simp
  · simp only [optimize_layout]
    refine List.pairwise_append.mpr
      ⟨List.pairwise_append.mpr ⟨?_, ?_, ?_⟩, ?_, ?_⟩
    · refine pairwise_of_all _ ?_
      intro a ha b hb
      rw [mem_filter_cat ha, mem_filter_cat hb]
    · refine pairwise_of_all _ ?_
      intro a ha b hb
      rw [mem_filter_cat ha, mem_filter_cat hb]
    · intro a ha b hb
      rw [mem_filter_cat ha, mem_filter_cat hb]
      decide
    · refine pairwise_of_all _ ?_
      intro a ha b hb
      rw [mem_filter_cat ha, mem_filter_cat hb]
    · intro a ha b hb
      rw [mem_filter_cat hb]
      rcases List.mem_append.mp ha with ha | ha
      · rw [mem_filter_cat ha]
        decide
      · rw [mem_filter_cat ha]
        decide
  · intro fw
    have e1 : (if fw.custom_styles = [] then pyReplace customStylesTok [] tasksTok
        else pyReplace customStylesTok fw.custom_styles tasksTok) = tasksTok := by
      split
      · exact pyReplace_nomatch (by decide) (by decide) []
      · exact pyReplace_nomatch (by decide) (by decide) fw.custom_styles
    simp only [CompactFramework.generateHtml]
    rw [e1, pyReplace_nomatch (by decide) (by decide) fw.title,
      pyReplace_nomatch (by decide) (by decide) fw.author,
      pyReplace_nomatch (by decide) (by decide) fw.date]
    have h := @pyReplace_once tasksTok (by decide) [] [] (by decide)
      (List.intercalate (("\n").data) ((optimize_layout fw.tasks).map Task.to_html))
    simpa using h

/-! ### Rendering a content block into the base template -/

/-- When the assembled base template contains the placeholder token exactly
once (it always does unless the css or variant text interferes), the
replacement of line 299/313/333/345 yields prefix ++ content ++ suffix. -/
theorem renderPage_eq (v css content : Str)
    (hTok : occCount contentTok (baseTemplate v css) = 1) :
    pyReplace contentTok content (baseTemplate v css) =
      btPre v css ++ (content ++ btD) := by
  rw [baseTemplate_decomp] at hTok ⊢
  exact pyReplace_once (by decide) hTok content

theorem containsSub_here (p t : Str) : containsSub p (p ++ t) = true :=
  containsSub_of_begins (begins_append p t)

theorem containsSub_page (p pre content suf : Str)
    (h : containsSub p content = true) :
    containsSub p (pre ++ (content ++ suf)) = true :=
  containsSub_append_right _ _ _ (containsSub_append_left _ _ _ h)

theorem adaptivePart_assoc (label : Str) (n : Nat) (body : Str) :
    adaptivePart label n body =
      adA ++ (natStr n ++ (label ++ (adB ++ (body ++ adC)))) := by
  simp [adaptivePart, List.append_assoc]

theorem containsSub_adaptivePart (label : Str) (n : Nat) (body : Str) :
    containsSub body (adaptivePart label n body) = true := by
  rw [adaptivePart_assoc]
  apply containsSub_append_right
  apply containsSub_append_right
  apply containsSub_append_right
  apply containsSub_append_right
  exact containsSub_here _ _

/-! ### Claim C5 -/

/-- C5: written for the long task the long bucket processes (the first one,
line 319).  If its solution contains the split marker exactly once, part 1's
math content is exactly the text before the marker and part 2's exactly the
text after it (and each page contains that text); if it contains no marker,
two files are still produced and part 2's math content is the literal
fallback `Continued...`. -/
theorem long_split_single_marker_and_fallback :
    (∀ (ts : List Task) (v css : Str) (t : Task) (rest : List Task) (a b : Str),
      ts.filter (fun x => x.category = TaskCategory.long) = t :: rest →
      t.solution = a ++ (splitMarker ++ b) →
      occCount splitMarker t.solution = 1 →
      occCount contentTok (baseTemplate v css) = 1 →
      longFilesOf ts v css =
        [(longPart1Name, btPre v css ++ (adaptivePart part1Label t.number a ++ btD)),
         (longPart2Name, btPre v css ++ (adaptivePart part2Label t.number b ++ btD))] ∧
      containsSub a (btPre v css ++ (adaptivePart part1Label t.number a ++ btD)) = true ∧
      containsSub b (btPre v css ++ (adaptivePart part2Label t.number b ++ btD)) = true) ∧
    (∀ (ts : List Task) (v css : Str) (t : Task) (rest : List Task),
      ts.filter (fun x => x.category = TaskCategory.long) = t :: rest →
      occCount splitMarker t.solution = 0 →
      occCount contentTok (baseTemplate v css) = 1 →
      longFilesOf ts v css =
        [(longPart1Name,
          btPre v css ++ (adaptivePart part1Label t.number t.solution ++ btD)),
         (longPart2Name,
          btPre v css ++ (adaptivePart part2Label t.number continuedLit ++ btD))]) := by
  constructor
  · intro ts v css t rest a b hfilter hsol hocc hTok
    have hsplit : pySplit splitMarker t.solution = [a, b] := by
      rw [hsol] at hocc ⊢
      exact pySplit_once (by decide) hocc
    have hfiles : longFilesOf ts v css =
        [(longPart1Name,
          pyReplace contentTok (adaptivePart part1Label t.number a) (baseTemplate v css)),
         (longPart2Name,
          pyReplace contentTok (adaptivePart part2Label t.number b) (baseTemplate v css))] := by
      unfold longFilesOf
      rw [hfilter]
      simp only [hsplit, List.length_cons, List.length_nil]
      norm_num
    rw [hfiles, renderPage_eq v css _ hTok, renderPage_eq v css _ hTok]
    refine ⟨rfl, ?_, ?_⟩
    · exact containsSub_page _ _ _ _ (containsSub_adaptivePart _ _ _)
    · exact containsSub_page _ _ _ _ (containsSub_adaptivePart _ _ _)
  · intro ts v css t rest hfilter hocc hTok
    have hsplit : pySplit splitMarker t.solution = [t.solution] :=
      pySplit_nomatch (by decide) hocc
    have hfiles : longFilesOf ts v css =
        [(longPart1Name,
          pyReplace contentTok (adaptivePart part1Label t.number t.solution)
            (baseTemplate v css)),
         (longPart2Name,
          pyReplace contentTok (adaptivePart part2Label t.number continuedLit)
            (baseTemplate v css))] := by
      unfold longFilesOf
      rw [hfilter]
      simp only [hsplit, List.length_cons, List.length_nil]
      norm_num
    rw [hfiles, renderPage_eq v css _ hTok, renderPage_eq v css _ hTok]

set_option maxRecDepth 40000 in
set_option maxHeartbeats 2000000 in
/-- Shared evaluation: the base template assembled from variant token `v`
and an empty style sheet holds the placeholder exactly once. -/
theorem baseTemplate_occ_concrete :
    occCount contentTok (baseTemplate (("v").data) []) = 1 := by
  decide

/-- Concrete long task whose solution holds the marker once. -/
def wTask5 : Task :=
  { number := 5, category := TaskCategory.long,
    solution := ("A").data ++ (splitMarker ++ ("B").data) }

/-- Concrete long task whose solution holds no marker. -/
def wTask6 : Task :=
  { number := 6, category := TaskCategory.long, solution := ("C").data }

/-- Witness for C5 at a one-task list, in both the single-marker and the
no-marker case. -/
theorem long_split_single_marker_and_fallback_witness :
    longFilesOf [wTask5] (("v").data) [] =
      [(longPart1Name,
        btPre (("v").data) [] ++ (adaptivePart part1Label 5 (("A").data) ++ btD)),
       (longPart2Name,
        btPre (("v").data) [] ++ (adaptivePart part2Label 5 (("B").data) ++ btD))] ∧
    longFilesOf [wTask6] (("v").data) [] =
      [(longPart1Name,
        btPre (("v").data) [] ++ (adaptivePart part1Label 6 (("C").data) ++ btD)),
       (longPart2Name,
        btPre (("v").data) [] ++ (adaptivePart part2Label 6 continuedLit ++ btD))] := by
  constructor
  · exact (long_split_single_marker_and_fallback.1
      [wTask5] (("v").data) [] wTask5 [] (("A").data) (("B").data)
      (by decide) rfl (by decide) baseTemplate_occ_concrete).1
  · exact long_split_single_marker_and_fallback.2
      [wTask6] (("v").data) [] wTask6 []
      (by decide) (by decide) baseTemplate_occ_concrete

/-! ### Claims C6 and C7: the combined-short page -/

theorem zigzagContent_assoc (t1 t2 : Task) :
    zigzagContent t1 t2 =
      zzA ++ (natStr t1.number ++ (zzB ++ (t1.solution ++ (zzC ++
        (natStr t2.number ++ (zzB ++ (t2.solution ++ zzD))))))) := by
  simp [zigzagContent, List.append_assoc]

theorem verticalContent_assoc (t1 t2 : Task) :
    verticalContent t1 t2 =
      vsA ++ (natStr t1.number ++ (vsB ++ (t1.solution ++ (vsC ++
        (natStr t2.number ++ (vsB ++ (t2.solution ++ vsD))))))) := by
  simp [verticalContent, List.append_assoc]

theorem containsSub_zigzag_sol1 (t1 t2 : Task) :
    containsSub t1.solution (zigzagContent t1 t2) = true := by
  rw [zigzagContent_assoc]
  apply containsSub_append_right
  apply containsSub_append_right
  apply containsSub_append_right
  exact containsSub_here _ _

theorem containsSub_zigzag_sol2 (t1 t2 : Task) :
    containsSub t2.solution (zigzagContent t1 t2) = true := by
  rw [zigzagContent_assoc]
  apply containsSub_append_right
  apply containsSub_append_right
  apply containsSub_append_right
  apply containsSub_append_right
  apply containsSub_append_right
  apply containsSub_append_right
  apply containsSub_append_right
  exact containsSub_here _ _

theorem containsSub_vertical_sol1 (t1 t2 : Task) :
    containsSub t1.solution (verticalContent t1 t2) = true := by
  rw [verticalContent_assoc]
  apply containsSub_append_right
  apply containsSub_append_right
  apply containsSub_append_right
  exact containsSub_here _ _

theorem containsSub_vertical_sol2 (t1 t2 : Task) :
    containsSub t2.solution (verticalContent t1 t2) = true := by
  rw [verticalContent_assoc]
  apply containsSub_append_right
  apply containsSub_append_right
  apply containsSub_append_right
  apply containsSub_append_right
  apply containsSub_append_right
  apply containsSub_append_right
  apply containsSub_append_right
  exact containsSub_here _ _

/-- The content selected for the combined-short page (the branch of lines
266-296). -/
def shortContent (v : Str) (t1 t2 : Task) : Str :=
  if containsSub zigzagLit v then zigzagContent t1 t2 else verticalContent t1 t2

theorem shortFilesOf_pair {ts : List Task} {t1 t2 : Task} {rest : List Task}
    (v css : Str)
    (hfilter : ts.filter (fun x => x.category = TaskCategory.short) =
      t1 :: t2 :: rest) :
    shortFilesOf ts v css =
      [(combinedShortName,
        pyReplace contentTok (shortContent v t1 t2) (baseTemplate v css))] := by
  unfold shortFilesOf shortContent
  rw [hfilter]

/-- C6: with at least two short tasks, exactly one `combined_short.html` is
produced for the whole call; its content is built from the first two short
tasks only (any further task — short or otherwise — has no influence), and
it contains both of their solution texts. -/
theorem combined_short_first_two_only :
    (∀ (ts : List Task) (v css : Str) (t1 t2 : Task) (rest : List Task),
      ts.filter (fun x => x.category = TaskCategory.short) = t1 :: t2 :: rest →
      occCount contentTok (baseTemplate v css) = 1 →
      (densityFiles ts v css).filter (fun f => f.1 = combinedShortName) =
        [(combinedShortName, btPre v css ++ (shortContent v t1 t2 ++ btD))] ∧
      containsSub t1.solution
        (btPre v css ++ (shortContent v t1 t2 ++ btD)) = true ∧
      containsSub t2.solution
        (btPre v css ++ (shortContent v t1 t2 ++ btD)) = true) ∧
    (∀ (ts : List Task) (v css : Str),
      (ts.filter fun x => x.category = TaskCategory.short).length < 2 →
      combinedShortName ∉ (densityFiles ts v css).map Prod.fst) := by
  constructor
  · intro ts v css t1 t2 rest hfilter hTok
    refine ⟨?_, ?_, ?_⟩
    · rw [densityFiles_filter_combined, shortFilesOf_pair v css hfilter,
        renderPage_eq v css _ hTok]
    · apply containsSub_page
      unfold shortContent
      split
      · exact containsSub_zigzag_sol1 t1 t2
      · exact containsSub_vertical_sol1 t1 t2
    · apply containsSub_page
      unfold shortContent
      split
      · exact containsSub_zigzag_sol2 t1 t2
      · exact containsSub_vertical_sol2 t1 t2
  · intro ts v css hS hmem
    rcases List.mem_map.mp hmem with ⟨f, hf, hname⟩
    have hshort : shortFilesOf ts v css = [] := by
      unfold shortFilesOf
      cases hfs : ts.filter (fun x => x.category = TaskCategory.short) with
      | nil => rfl
      | cons u1 urest =>
        cases urest with
        | nil => rfl
        | cons u2 u3 =>
          rw [hfs] at hS
          simp only [List.length_cons] at hS
          omega
    unfold densityFiles at hf
    rw [hshort, List.nil_append] at hf
    rcases List.mem_append.mp hf with hf | hf
    · have := mediumFilesOf_name ts v css f hf
      rw [this] at hname
      exact absurd hname (by decide)
    · rcases longFilesOf_name ts v css f hf with h | h
      · rw [h] at hname
        exact absurd hname (by decide)
      · rw [h] at hname
        exact absurd hname (by decide)

/-- Concrete short tasks used by witnesses. -/
def wShort1 : Task :=
  { number := 1, category := TaskCategory.short, solution := ("S1").data }

def wShort2 : Task :=
  { number := 2, category := TaskCategory.short, solution := ("S2").data }

def wShort3 : Task :=
  { number := 3, category := TaskCategory.short, solution := ("S3").data }

/-- Witness for C6: three short tasks; the file pairs the first two, and a
lone short task yields no combined file. -/
theorem combined_short_first_two_only_witness :
    (densityFiles [wShort1, wShort2, wShort3] (("v").data) []).filter
        (fun f => f.1 = combinedShortName) =
      [(combinedShortName,
        btPre (("v").data) [] ++ (shortContent (("v").data) wShort1 wShort2 ++ btD))] ∧
    containsSub (("S1").data)
      (btPre (("v").data) [] ++
        (shortContent (("v").data) wShort1 wShort2 ++ btD)) = true ∧
    combinedShortName ∉ (densityFiles [wShort1] (("v").data) []).map Prod.fst := by
  have h := combined_short_first_two_only.1
    [wShort1, wShort2, wShort3] (("v").data) [] wShort1 wShort2 [wShort3]
    (by decide) baseTemplate_occ_concrete
  exact ⟨h.1, h.2.1,
    combined_short_first_two_only.2 [wShort1] (("v").data) [] (by decide)⟩

theorem containsSub_zzA (p : Str) (t1 t2 : Task) (h : containsSub p zzA = true) :
    containsSub p (zigzagContent t1 t2) = true := by
  rw [zigzagContent_assoc]
  exact containsSub_append_left _ _ _ h

theorem containsSub_zzC (p : Str) (t1 t2 : Task) (h : containsSub p zzC = true) :
    containsSub p (zigzagContent t1 t2) = true := by
  rw [zigzagContent_assoc]
  apply containsSub_append_right
  apply containsSub_append_right
  apply containsSub_append_right
  apply containsSub_append_right
  exact containsSub_append_left _ _ _ h

theorem containsSub_vsA (p : Str) (t1 t2 : Task) (h : containsSub p vsA = true) :
    containsSub p (verticalContent t1 t2) = true := by
  rw [verticalContent_assoc]
  exact containsSub_append_left _ _ _ h

theorem containsSub_vsC (p : Str) (t1 t2 : Task) (h : containsSub p vsC = true) :
    containsSub p (verticalContent t1 t2) = true := by
  rw [verticalContent_assoc]
  apply containsSub_append_right
  apply containsSub_append_right
  apply containsSub_append_right
  apply containsSub_append_right
  exact containsSub_append_left _ _ _ h

/-- C7: for the same two short tasks, a variant token containing the
substring `zigzag` yields the top/bottom paired layout with the
diagonal-separator graphic overlay, and any token not containing it yields
the left/right paired layout. -/
theorem zigzag_token_selects_layout :
    ∀ (ts : List Task) (v css : Str) (t1 t2 : Task) (rest : List Task),
      ts.filter (fun x => x.category = TaskCategory.short) = t1 :: t2 :: rest →
      occCount contentTok (baseTemplate v css) = 1 →
      ((containsSub zigzagLit v = true →
        shortFilesOf ts v css =
          [(combinedShortName, btPre v css ++ (zigzagContent t1 t2 ++ btD))] ∧
        containsSub (("layout-zigzag").data)
          (btPre v css ++ (zigzagContent t1 t2 ++ btD)) = true ∧
        containsSub (("task-top").data)
          (btPre v css ++ (zigzagContent t1 t2 ++ btD)) = true ∧
        containsSub (("task-bottom").data)
          (btPre v css ++ (zigzagContent t1 t2 ++ btD)) = true ∧
        containsSub (("zigzag-separator").data)
          (btPre v css ++ (zigzagContent t1 t2 ++ btD)) = true) ∧
      (containsSub zigzagLit v = false →
        shortFilesOf ts v css =
          [(combinedShortName, btPre v css ++ (verticalContent t1 t2 ++ btD))] ∧
        containsSub (("layout-vertical-split").data)
          (btPre v css ++ (verticalContent t1 t2 ++ btD)) = true ∧
        containsSub (("task-left").data)
          (btPre v css ++ (verticalContent t1 t2 ++ btD)) = true ∧
        containsSub (("task-right").data)
          (btPre v css ++ (verticalContent t1 t2 ++ btD)) = true)) := by
  intro ts v css t1 t2 rest hfilter hTok
  constructor
  · intro hz
    have hc : shortContent v t1 t2 = zigzagContent t1 t2 := by
      simp [shortContent, hz]
    refine ⟨?_, ?_, ?_, ?_, ?_⟩
    · rw [shortFilesOf_pair v css hfilter, hc, renderPage_eq v css _ hTok]
    · exact containsSub_page _ _ _ _ (containsSub_zzA _ _ _ (by decide))
    · exact containsSub_page _ _ _ _ (containsSub_zzA _ _ _ (by decide))
    · exact containsSub_page _ _ _ _ (containsSub_zzC _ _ _ (by decide))
    · exact containsSub_page _ _ _ _ (containsSub_zzA _ _ _ (by decide))
  · intro hz
    have hc : shortContent v t1 t2 = verticalContent t1 t2 := by
      simp [shortContent, hz]
    refine ⟨?_, ?_, ?_, ?_⟩
    · rw [shortFilesOf_pair v css hfilter, hc, renderPage_eq v css _ hTok]
    · exact containsSub_page _ _ _ _ (containsSub_vsA _ _ _ (by decide))
    · exact containsSub_page _ _ _ _ (containsSub_vsA _ _ _ (by decide))
    · exact containsSub_page _ _ _ _ (containsSub_vsC _ _ _ (by decide))

set_option maxRecDepth 40000 in
set_option maxHeartbeats 2000000 in
/-- Shared evaluation: the base template assembled from the `zigzag`
variant token and an empty style sheet holds the placeholder exactly
once. -/
theorem baseTemplate_occ_zigzag :
    occCount contentTok (baseTemplate (("zigzag").data) []) = 1 := by
  decide

/-- Witness for C7: the same two short tasks under the `zigzag` token and
under a plain token. -/
theorem zigzag_token_selects_layout_witness :
    shortFilesOf [wShort1, wShort2] (("zigzag").data) [] =
      [(combinedShortName,
        btPre (("zigzag").data) [] ++ (zigzagContent wShort1 wShort2 ++ btD))] ∧
    shortFilesOf [wShort1, wShort2] (("v").data) [] =
      [(combinedShortName,
        btPre (("v").data) [] ++ (verticalContent wShort1 wShort2 ++ btD))] := by
  have hz := zigzag_token_selects_layout
    [wShort1, wShort2] (("zigzag").data) [] wShort1 wShort2 []
    (by decide) baseTemplate_occ_zigzag
  have hv := zigzag_token_selects_layout
    [wShort1, wShort2] (("v").data) [] wShort1 wShort2 []
    (by decide) baseTemplate_occ_concrete
  exact ⟨(hz.1 (by decide)).1, (hv.2 (by decide)).1⟩

/-! ### Claim C2 -/

/-- General behaviour of the long-bucket block on a two-marker solution:
the full `split` of line 320 cuts at both markers, `parts[1]` is then the
text strictly between them, and the text after the second marker is in
neither output file. -/
theorem long_split_two_markers_eval :
    ∀ (ts : List Task) (v css : Str) (t : Task) (rest : List Task) (a b c : Str),
      ts.filter (fun x => x.category = TaskCategory.long) = t :: rest →
      t.solution = a ++ (splitMarker ++ (b ++ (splitMarker ++ c))) →
      occCount splitMarker t.solution = 2 →
      occCount contentTok (baseTemplate v css) = 1 →
      longFilesOf ts v css =
        [(longPart1Name, btPre v css ++ (adaptivePart part1Label t.number a ++ btD)),
         (longPart2Name, btPre v css ++ (adaptivePart part2Label t.number b ++ btD))] := by
  intro ts v css t rest a b c hfilter hsol hocc hTok
  have hsplit : pySplit splitMarker t.solution = [a, b, c] := by
    rw [hsol] at hocc ⊢
    exact pySplit_twice (by decide) hocc
  have hfiles : longFilesOf ts v css =
      [(longPart1Name,
        pyReplace contentTok (adaptivePart part1Label t.number a) (baseTemplate v css)),
       (longPart2Name,
        pyReplace contentTok (adaptivePart part2Label t.number b) (baseTemplate v css))] := by
    unfold longFilesOf
    rw [hfilter]
    simp only [hsplit, List.length_cons, List.length_nil]
    norm_num
  rw [hfiles, renderPage_eq v css _ hTok, renderPage_eq v css _ hTok]

/-- Solution with two split markers and a distinctive final fragment. -/
def c2task : Task :=
  { number := 9, category := TaskCategory.long,
    solution :=
      ("A").data ++ (splitMarker ++ (("B").data ++ (splitMarker ++ ("ξ").data))) }

set_option maxRecDepth 40000 in
set_option maxHeartbeats 4000000 in
/-- C2 as stated is wrong: `str.split` cuts at every marker, so with two
markers the text after the second marker (here the single character `ξ`,
which occurs nowhere else in the page) does not appear in
`long_split_part2.html` at all — part 2 receives only the text between the
two markers. -/
theorem long_split_second_marker_text_dropped_counterexample :
    (longFilesOf [c2task] (("v").data) []).map Prod.fst =
      [longPart1Name, longPart2Name] ∧
    containsSub (("ξ").data)
      (((longFilesOf [c2task] (("v").data) []).getD 1 ([], [])).2) = false := by
  have he := long_split_two_markers_eval [c2task] (("v").data) [] c2task []
    (("A").data) (("B").data) (("ξ").data)
    (by decide) rfl (by decide) baseTemplate_occ_concrete
  rw [he]
  exact ⟨rfl, by decide⟩

/-- C2 (amended): with two markers only a two-way split occurs, but it is
not the first marker alone that is honoured: part 2 contains exactly the
text strictly between the first and the second marker, and the text after
the second marker is dropped from both output files. -/
theorem long_split_two_markers_middle_only :
    ∀ (ts : List Task) (v css : Str) (t : Task) (rest : List Task) (a b c : Str),
      ts.filter (fun x => x.category = TaskCategory.long) = t :: rest →
      t.solution = a ++ (splitMarker ++ (b ++ (splitMarker ++ c))) →
      occCount splitMarker t.solution = 2 →
      occCount contentTok (baseTemplate v css) = 1 →
      longFilesOf ts v css =
        [(longPart1Name, btPre v css ++ (adaptivePart part1Label t.number a ++ btD)),
         (longPart2Name, btPre v css ++ (adaptivePart part2Label t.number b ++ btD))] :=
  long_split_two_markers_eval

/-- Witness for C2 (amended) at the concrete two-marker task. -/
theorem long_split_two_markers_middle_only_witness :
    longFilesOf [c2task] (("v").data) [] =
      [(longPart1Name,
        btPre (("v").data) [] ++ (adaptivePart part1Label 9 (("A").data) ++ btD)),
       (longPart2Name,
        btPre (("v").data) [] ++ (adaptivePart part2Label 9 (("B").data) ++ btD))] :=
  long_split_two_markers_middle_only [c2task] (("v").data) [] c2task []
    (("A").data) (("B").data) (("ξ").data)
    (by decide) rfl (by decide) baseTemplate_occ_concrete

end Watch
